import Mathlib

/-!
Shallow embedding of the version-1 (time-based) UUID module (`src/v1.rs`):
the `Timestamp` type and its unix-time conversions, the `ClockSequence`
counter abstraction with its default `Context` implementation, and the
assembly (`Uuid::new_v1`) / disassembly (`Uuid::to_timestamp`) of the
128-bit identifier.

Machine integers are embedded as `Nat` with an explicit `% 2 ^ w` at every
point where Rust's fixed-width arithmetic can wrap.  Bit masks and shifts by
constants are written in the equivalent div/mod form
(`x &&& 0xFFFF = x % 2 ^ 16`, `x >>> 32 = x / 2 ^ 32`,
`(x &&& 0x3F00) >>> 8 = x / 2 ^ 8 % 2 ^ 6`), and `|||` of values occupying
disjoint bit ranges is written as `+` (e.g. `y | (1 <<< 12)` with
`y < 2 ^ 12` becomes `y + 2 ^ 12`).

Interior mutability (`&self` plus `AtomicUsize`) is embedded as explicit
state passing: `generate_sequence` consumes a state and returns the drawn
value together with the successor state.
-/

namespace V1

/-- Constant `UUID_TICKS_BETWEEN_EPOCHS`: the number of 100 ns ticks between
the UUID epoch 1582-10-15 00:00:00 and the Unix epoch 1970-01-01 00:00:00. -/
def UUID_TICKS_BETWEEN_EPOCHS : Nat := 0x01B21DD213814000

/-- Struct `Timestamp`: an RFC4122 tick count (`ticks: u64`) plus a
disambiguation counter (`counter: u16`). -/
structure Timestamp where
  ticks : Nat
  counter : Nat
deriving DecidableEq, Repr

/-- Constructor `Timestamp::from_rfc4122`: direct construction from raw
component values, no validation. -/
def Timestamp.from_rfc4122 (ticks counter : Nat) : Timestamp :=
  Timestamp.mk ticks counter

/-- Trait `ClockSequence`, with its single method
`generate_sequence(&self, seconds: u64, subsec_nanos: u32) -> u16`.  The
Rust method takes `&self` and may mutate interior state, so the embedding
threads an explicit state `σ`: the method maps a state and the two time
arguments to the returned value and the successor state. -/
structure ClockSequence (σ : Type) where
  generate_sequence : σ → Nat → Nat → Nat × σ

/-- Struct `Context`: the default thread-safe clock-sequence source,
wrapping `count: AtomicUsize` (a 64-bit `usize`). -/
structure Context where
  count : Nat
deriving DecidableEq, Repr

/-- Constructor `Context::new(count: u16)`: stores `count as usize`. -/
def Context.new (count : Nat) : Context :=
  Context.mk count

/-- Impl of `ClockSequence for Context`:
`(self.count.fetch_add(1, SeqCst) & 0xffff) as u16`.  `fetch_add` returns
the pre-increment value and wraps at the 64-bit `usize` width; the result
is truncated with `& 0xffff`, i.e. `% 2 ^ 16`.  The time arguments are
ignored (they are `_` in the source). -/
def Context.generate_sequence (c : Context) (_seconds _subsec_nanos : Nat) :
    Nat × Context :=
  (c.count % 2 ^ 16, Context.mk ((c.count + 1) % 2 ^ 64))

/-- Packaging of `Context`'s `ClockSequence` impl as a first-class value. -/
def Context.clockSequence : ClockSequence Context :=
  ClockSequence.mk Context.generate_sequence

/-- Constructor `Timestamp::from_unix`: queries the clock sequence exactly
once, passing it the same `seconds` and `subsec_nanos`, and computes
`ticks = UUID_TICKS_BETWEEN_EPOCHS + seconds * 10_000_000 + subsec_nanos / 100`
in `u64` arithmetic, which wraps modulo `2 ^ 64`.  Returns the successor
clock-sequence state alongside the constructed timestamp. -/
def Timestamp.from_unix {σ : Type} (cs : ClockSequence σ) (s : σ)
    (seconds subsec_nanos : Nat) : Timestamp × σ :=
  let p := cs.generate_sequence s seconds subsec_nanos
  (Timestamp.mk
    ((UUID_TICKS_BETWEEN_EPOCHS + seconds * 10000000 + subsec_nanos / 100) % 2 ^ 64)
    p.1,
   p.2)

/-- Accessor `Timestamp::to_rfc4122`: returns the stored raw values. -/
def Timestamp.to_rfc4122 (t : Timestamp) : Nat × Nat :=
  (t.ticks, t.counter)

/-- Accessor `Timestamp::to_unix`: computes
`ticks - UUID_TICKS_BETWEEN_EPOCHS` in `u64` arithmetic (wrapping
subtraction, embedded as `(ticks + 2 ^ 64 - offset) % 2 ^ 64`), divides by
10_000_000 for the seconds, and for the nanoseconds takes the remainder,
casts it `as u32` (`% 2 ^ 32`) and multiplies by 100 in `u32` arithmetic. -/
def Timestamp.to_unix (t : Timestamp) : Nat × Nat :=
  ((t.ticks + 2 ^ 64 - UUID_TICKS_BETWEEN_EPOCHS) % 2 ^ 64 / 10000000,
   (t.ticks + 2 ^ 64 - UUID_TICKS_BETWEEN_EPOCHS) % 2 ^ 64 % 10000000
     % 2 ^ 32 * 100 % 2 ^ 32)

/-- Accessor `Timestamp::to_unix_nanos`:
`(ticks - UUID_TICKS_BETWEEN_EPOCHS) * 100` in `u64` arithmetic. -/
def Timestamp.to_unix_nanos (t : Timestamp) : Nat :=
  (t.ticks + 2 ^ 64 - UUID_TICKS_BETWEEN_EPOCHS) % 2 ^ 64 * 100 % 2 ^ 64

/-- Modelled from the spec: the length-validation failure raised by
assembly.  The error type itself (`crate::builder::Error`) lives outside
`src/`; per the spec it carries the expected length (6) and the actual
length received. -/
structure NodeError where
  expected : Nat
  actual : Nat
deriving DecidableEq, Repr

/-- Modelled from the spec: the external 128-bit identifier type, which
this core knows only through its raw 16 bytes in network (big-endian,
RFC-field) order. -/
structure Uuid where
  bytes : List Nat
deriving DecidableEq, Repr

/-- Well-formed identifier: exactly 16 bytes, each one a `u8`. -/
def Uuid.wf (u : Uuid) : Prop :=
  u.bytes.length = 16 ∧ ∀ b ∈ u.bytes, b < 256

instance : DecidablePred Uuid.wf := fun u =>
  inferInstanceAs (Decidable (u.bytes.length = 16 ∧ ∀ b ∈ u.bytes, b < 256))

/-- Accessor `as_bytes` of the external identifier type: the raw 16 bytes
in network order. -/
def Uuid.as_bytes (u : Uuid) : List Nat :=
  u.bytes

/-- Modelled from the spec: the external constructor `Uuid::from_fields`
takes a `u32` field, two `u16` fields and an 8-byte group and lays them out
big-endian into the identifier's 16 raw bytes. -/
def Uuid.from_fields (d1 d2 d3 : Nat) (d4 : List Nat) : Uuid :=
  Uuid.mk
    ([d1 / 2 ^ 24 % 256, d1 / 2 ^ 16 % 256, d1 / 2 ^ 8 % 256, d1 % 256,
      d2 / 2 ^ 8 % 256, d2 % 256,
      d3 / 2 ^ 8 % 256, d3 % 256] ++ d4)

/-- Modelled from the spec: the external format/version inspector
`get_version`, reading the version number from the high nibble of raw byte
6; a nibble naming a known format (1 through 5) is returned, anything else
yields `none`.  Version 1 (`Version::Mac`) is the time-based format
assembled by `new_v1`. -/
def Uuid.get_version (u : Uuid) : Option Nat :=
  let v := u.as_bytes.getD 6 0 / 2 ^ 4
  if 1 ≤ v ∧ v ≤ 5 then some v else none

/-- Function `Uuid::new_v1`: validates that the node ID is exactly 6 bytes
(otherwise fails with the length-mismatch error), then splits the ticks as
`time_low = ticks & 0xFFFF_FFFF`, `time_mid = (ticks >> 32) & 0xFFFF`,
`time_high_and_version = ((ticks >> 48) & 0x0FFF) | (1 << 12)`, builds the
trailing 8-byte group as `d4[0] = ((counter & 0x3F00) >> 8) | 0x80`
(the `| 0x80` sets the variant bits above the 6 counter bits, hence `+ 128`),
`d4[1] = counter & 0xFF`, `d4[2..8] = node_id`, and delegates to
`Uuid::from_fields`. -/
def Uuid.new_v1 (ts : Timestamp) (node_id : List Nat) : Except NodeError Uuid :=
  let len := node_id.length
  if len ≠ 6 then
    Except.error (NodeError.mk 6 len)
  else
    let time_low := ts.ticks % 2 ^ 32
    let time_mid := ts.ticks / 2 ^ 32 % 2 ^ 16
    let time_high_and_version := ts.ticks / 2 ^ 48 % 2 ^ 12 + 2 ^ 12
    let d4 := [ts.counter / 2 ^ 8 % 2 ^ 6 + 128, ts.counter % 256] ++ node_id
    Except.ok (Uuid.from_fields time_low time_mid time_high_and_version d4)

/-- Function `Uuid::to_timestamp`: returns `none` unless the version
inspector reports the time-based format (`Version::Mac`); otherwise
reassembles the 60-bit tick count from raw bytes 6 (low nibble, `& 0x0F`),
7, 4, 5, 0, 1, 2, 3 — most significant first — and the 14-bit counter from
byte 8 (`& 0x3F`) and byte 9, and wraps them with
`Timestamp::from_rfc4122`. -/
def Uuid.to_timestamp (u : Uuid) : Option Timestamp :=
  if (u.get_version.map fun v => v != 1).getD true then
    none
  else
    let b := u.as_bytes
    let ticks :=
      b.getD 6 0 % 2 ^ 4 * 2 ^ 56 + b.getD 7 0 * 2 ^ 48 +
      b.getD 4 0 * 2 ^ 40 + b.getD 5 0 * 2 ^ 32 +
      b.getD 0 0 * 2 ^ 24 + b.getD 1 0 * 2 ^ 16 +
      b.getD 2 0 * 2 ^ 8 + b.getD 3 0
    let counter := b.getD 8 0 % 2 ^ 6 * 2 ^ 8 + b.getD 9 0
    some (Timestamp.from_rfc4122 ticks counter)

/-- State of a `Context` after `n` sequential `generate_sequence` calls.
`Context` ignores the time arguments, which are fixed to 0 here. -/
def Context.after (c : Context) : Nat → Context
  | 0 => c
  | n + 1 => (Context.generate_sequence (c.after n) 0 0).2

/-- Values returned by `n` sequential `generate_sequence` calls on a
shared `Context`, in call order. -/
def Context.values (c : Context) (n : Nat) : List Nat :=
  (List.range n).map fun k => (Context.generate_sequence (c.after k) 0 0).1

/-- Counter value held by a fresh `Context` after `k` calls. -/
theorem Context.after_new (C : Nat) (hC : C < 2 ^ 64) (k : Nat) :
    (Context.new C).after k = Context.mk ((C + k) % 2 ^ 64) := by
  induction k with
  | zero =>
      simp only [Context.after, Context.new]
      congr 1
      omega
  | succ n ih =>
      simp only [Context.after, ih, Context.generate_sequence]
      congr 1
      omega

/-- C2: for every Timestamp `ts` and every byte slice `n` with `len(n) ≠ 6`,
`Uuid::new_v1(ts, n)` fails with the node-ID length-mismatch error carrying
expected length 6 and actual length `len(n)`; no identifier is produced. -/
theorem new_v1_wrong_length (ts : Timestamp) (node_id : List Nat)
    (h : node_id.length ≠ 6) :
    Uuid.new_v1 ts node_id = Except.error (NodeError.mk 6 node_id.length) := by
  simp [Uuid.new_v1, h]

/-- Witness for `new_v1_wrong_length` at the empty node ID. -/
theorem new_v1_wrong_length_witness :
    Uuid.new_v1 (Timestamp.from_rfc4122 0 0) [1, 2, 3] =
      Except.error (NodeError.mk 6 3) :=
  new_v1_wrong_length (Timestamp.from_rfc4122 0 0) [1, 2, 3] (by decide)

/-- C3: the default `Context`'s `generate_sequence` ignores its `seconds`
and `subsec_nanos` arguments entirely; starting from `Context::new(C)`
(with `C` a `u16`), the k-th sequential call returns `(C + k) mod 2 ^ 16`;
and any two calls among the first `2 ^ 16` return distinct values (the
counter wraps silently, with no error, only after `2 ^ 16` calls). -/
theorem context_generate_sequence_spec :
    (∀ (c : Context) (s n s2 n2 : Nat),
        Context.generate_sequence c s n = Context.generate_sequence c s2 n2) ∧
    (∀ C k : Nat, C < 2 ^ 16 →
        (Context.generate_sequence ((Context.new C).after k) 0 0).1 =
          (C + k) % 2 ^ 16) ∧
    (∀ C j k : Nat, C < 2 ^ 16 → j < k → k < 2 ^ 16 →
        (Context.generate_sequence ((Context.new C).after j) 0 0).1 ≠
          (Context.generate_sequence ((Context.new C).after k) 0 0).1) := by
  have hval : ∀ C k : Nat, C < 2 ^ 16 →
      (Context.generate_sequence ((Context.new C).after k) 0 0).1 =
        (C + k) % 2 ^ 16 := by
    intro C k hC
    rw [Context.after_new C (by omega) k]
    simp only [Context.generate_sequence]
    omega
  refine ⟨fun c s n s2 n2 => rfl, hval, ?_⟩
  intro C j k hC hjk hk
  rw [hval C j hC, hval C k hC]
  omega

/-- Witness for `context_generate_sequence_spec`: the third call on a
context starting at the top `u16` value wraps to 2, and the second and
third calls on a fresh context differ. -/
theorem context_generate_sequence_spec_witness :
    (Context.generate_sequence ((Context.new 65535).after 3) 0 0).1 =
      (65535 + 3) % 2 ^ 16 ∧
    (Context.generate_sequence ((Context.new 0).after 1) 0 0).1 ≠
      (Context.generate_sequence ((Context.new 0).after 2) 0 0).1 :=
  ⟨context_generate_sequence_spec.2.1 65535 3 (by decide),
   context_generate_sequence_spec.2.2 0 1 2 (by decide) (by decide) (by decide)⟩

/-- C4: `K` `generate_sequence` calls sharing one default context started
at count `C` return exactly the values `{C, C+1, ..., C+K-1} mod 2 ^ 16`,
in call order, with no duplicates for `K ≤ 2 ^ 16`.  Each call is a single
atomic `fetch_add`, so a concurrent execution by `K` threads is some
sequential order of these `K` indivisible calls: the list below is that
sequence of calls, and which thread receives which element is the only
schedule-dependent part — the value set and its distinctness are not. -/
theorem context_values_spec (C K : Nat) (hC : C < 2 ^ 16) (hK : K ≤ 2 ^ 16) :
    (Context.new C).values K =
      (List.range K).map (fun i => (C + i) % 2 ^ 16) ∧
    ((Context.new C).values K).Nodup := by
  have hmap : (Context.new C).values K =
      (List.range K).map (fun i => (C + i) % 2 ^ 16) := by
    unfold Context.values
    refine List.map_congr_left ?_
    intro i hi
    rw [Context.after_new C (by omega) i]
    simp only [Context.generate_sequence]
    omega
  refine ⟨hmap, ?_⟩
  rw [hmap]
  refine (List.nodup_range K).map_on ?_
  intro i hi j hj hij
  have hi2 := List.mem_range.mp hi
  have hj2 := List.mem_range.mp hj
  omega

/-- Witness for `context_values_spec` at `C = 65534`, `K = 3` (one wrap). -/
theorem context_values_spec_witness :
    (Context.new 65534).values 3 =
      (List.range 3).map (fun i => (65534 + i) % 2 ^ 16) ∧
    ((Context.new 65534).values 3).Nodup :=
  context_values_spec 65534 3 (by decide) (by decide)

/-- C5 counterexample: the claim promises
`ticks = UUID_TICKS_BETWEEN_EPOCHS + seconds * 10_000_000 + subsec_nanos / 100`
for every `u64` value of `seconds`, but `seconds * 10_000_000` is a `u64`
multiplication and wraps: at `seconds = 2 ^ 63` the stored ticks differ
from the claimed sum. -/
theorem from_unix_overflow_counterexample :
    (Timestamp.from_unix Context.clockSequence (Context.new 0) (2 ^ 63) 0).1.ticks ≠
      UUID_TICKS_BETWEEN_EPOCHS + 2 ^ 63 * 10000000 + 0 / 100 := by
  decide

/-- C5 (amended): whenever
`UUID_TICKS_BETWEEN_EPOCHS + seconds * 10_000_000 + subsec_nanos / 100`
fits in 64 bits, `Timestamp::from_unix` returns a Timestamp with exactly
those ticks; it invokes the clock sequence exactly once, passing it exactly
`(seconds, subsec_nanos)`, stores the returned value as the counter, and
leaves the clock-sequence state as that single call leaves it. -/
theorem from_unix_spec {σ : Type} (cs : ClockSequence σ) (s : σ)
    (seconds subsec_nanos : Nat)
    (_hnanos : subsec_nanos ≤ 999999999)
    (hof : UUID_TICKS_BETWEEN_EPOCHS + seconds * 10000000 + subsec_nanos / 100
      < 2 ^ 64) :
    Timestamp.from_unix cs s seconds subsec_nanos =
      (Timestamp.mk
        (UUID_TICKS_BETWEEN_EPOCHS + seconds * 10000000 + subsec_nanos / 100)
        (cs.generate_sequence s seconds subsec_nanos).1,
       (cs.generate_sequence s seconds subsec_nanos).2) := by
  simp only [Timestamp.from_unix, Nat.mod_eq_of_lt hof]

/-- Witness for `from_unix_spec` at seconds 1, nanos 250, on a fresh
default context. -/
theorem from_unix_spec_witness :
    Timestamp.from_unix Context.clockSequence (Context.new 7) 1 250 =
      (Timestamp.mk
        (UUID_TICKS_BETWEEN_EPOCHS + 1 * 10000000 + 250 / 100)
        (Context.clockSequence.generate_sequence (Context.new 7) 1 250).1,
       (Context.clockSequence.generate_sequence (Context.new 7) 1 250).2) :=
  from_unix_spec Context.clockSequence (Context.new 7) 1 250 (by decide) (by decide)

/-- C6: for every Timestamp whose ticks are a `u64` value at least the
epoch offset, `to_unix` returns
`((ticks - offset) / 10_000_000, (ticks - offset) % 10_000_000 * 100)`;
below the offset the `u64` subtraction underflows (no error is reported:
the function is total over the pair type). -/
theorem to_unix_spec (t : Timestamp) (h64 : t.ticks < 2 ^ 64)
    (hepoch : UUID_TICKS_BETWEEN_EPOCHS ≤ t.ticks) :
    t.to_unix =
      ((t.ticks - UUID_TICKS_BETWEEN_EPOCHS) / 10000000,
       (t.ticks - UUID_TICKS_BETWEEN_EPOCHS) % 10000000 * 100) := by
  have hd : (t.ticks + 2 ^ 64 - UUID_TICKS_BETWEEN_EPOCHS) % 2 ^ 64 =
      t.ticks - UUID_TICKS_BETWEEN_EPOCHS := by
    unfold UUID_TICKS_BETWEEN_EPOCHS at *
    omega
  simp only [Timestamp.to_unix, hd, Prod.mk.injEq]
  refine ⟨by trivial, ?_⟩
  have hlt : (t.ticks - UUID_TICKS_BETWEEN_EPOCHS) % 10000000 < 10000000 := by
    omega
  omega

/-- Witness for `to_unix_spec` at 2.5 seconds past the epoch offset. -/
theorem to_unix_spec_witness :
    (Timestamp.mk (UUID_TICKS_BETWEEN_EPOCHS + 25000000) 0).to_unix =
      (((UUID_TICKS_BETWEEN_EPOCHS + 25000000) - UUID_TICKS_BETWEEN_EPOCHS)
         / 10000000,
       ((UUID_TICKS_BETWEEN_EPOCHS + 25000000) - UUID_TICKS_BETWEEN_EPOCHS)
         % 10000000 * 100) :=
  to_unix_spec (Timestamp.mk (UUID_TICKS_BETWEEN_EPOCHS + 25000000) 0)
    (by decide) (by decide)

/-- C7 counterexample: the round trip fails for `seconds` values whose
tick conversion overflows `u64`: at `seconds = 2 ^ 63`, `nanos = 0` the
recovered pair is `(0, 0)`, not `(2 ^ 63, 0)`. -/
theorem from_unix_to_unix_counterexample :
    (Timestamp.from_unix Context.clockSequence (Context.new 0) (2 ^ 63) 0).1.to_unix ≠
      (2 ^ 63, 0) := by
  decide

/-- C7 (amended): for every `seconds` and `subsec_nanos` with
`subsec_nanos` a multiple of 100 and no `u64` overflow in the tick
conversion, `Timestamp::from_unix(ctx, s, n).to_unix() = (s, n)` for any
clock sequence. -/
theorem from_unix_to_unix_roundtrip {σ : Type} (cs : ClockSequence σ) (s : σ)
    (seconds subsec_nanos : Nat)
    (hnanos : subsec_nanos ≤ 999999999)
    (hmul : subsec_nanos % 100 = 0)
    (hof : UUID_TICKS_BETWEEN_EPOCHS + seconds * 10000000 + subsec_nanos / 100
      < 2 ^ 64) :
    (Timestamp.from_unix cs s seconds subsec_nanos).1.to_unix =
      (seconds, subsec_nanos) := by
  have hd : ((UUID_TICKS_BETWEEN_EPOCHS + seconds * 10000000 + subsec_nanos / 100)
        % 2 ^ 64 + 2 ^ 64 - UUID_TICKS_BETWEEN_EPOCHS) % 2 ^ 64 =
      seconds * 10000000 + subsec_nanos / 100 := by
    unfold UUID_TICKS_BETWEEN_EPOCHS at *
    omega
  simp only [Timestamp.from_unix, Timestamp.to_unix, hd, Prod.mk.injEq]
  have hlt : subsec_nanos / 100 < 10000000 := by omega
  have h1 : (seconds * 10000000 + subsec_nanos / 100) / 10000000 = seconds := by
    omega
  have h2 : (seconds * 10000000 + subsec_nanos / 100) % 10000000 =
      subsec_nanos / 100 := by
    omega
  rw [h1, h2]
  have h3 : subsec_nanos / 100 % 2 ^ 32 = subsec_nanos / 100 := by omega
  have h4 : subsec_nanos / 100 * 100 = subsec_nanos := by omega
  rw [h3, h4]
  exact ⟨rfl, by omega⟩

/-- Witness for `from_unix_to_unix_roundtrip` at the test vector's time. -/
theorem from_unix_to_unix_roundtrip_witness :
    (Timestamp.from_unix Context.clockSequence (Context.new 0)
        1496854535 812946000).1.to_unix =
      (1496854535, 812946000) :=
  from_unix_to_unix_roundtrip Context.clockSequence (Context.new 0)
    1496854535 812946000 (by decide) (by decide) (by decide)

/-- Disassembly of any identifier whose version nibble (high nibble of raw
byte 6) is 1: `to_timestamp` succeeds and returns the ticks and counter
reassembled from the documented byte positions. -/
theorem to_timestamp_version_one (u : Uuid)
    (h : u.as_bytes.getD 6 0 / 2 ^ 4 = 1) :
    u.to_timestamp = some (Timestamp.from_rfc4122
      (u.as_bytes.getD 6 0 % 2 ^ 4 * 2 ^ 56 + u.as_bytes.getD 7 0 * 2 ^ 48 +
       u.as_bytes.getD 4 0 * 2 ^ 40 + u.as_bytes.getD 5 0 * 2 ^ 32 +
       u.as_bytes.getD 0 0 * 2 ^ 24 + u.as_bytes.getD 1 0 * 2 ^ 16 +
       u.as_bytes.getD 2 0 * 2 ^ 8 + u.as_bytes.getD 3 0)
      (u.as_bytes.getD 8 0 % 2 ^ 6 * 2 ^ 8 + u.as_bytes.getD 9 0)) := by
  have hb : (u.get_version.map fun v => v != 1).getD true = false := by
    simp only [Uuid.get_version, h]
    norm_num
  simp [Uuid.to_timestamp, hb]

/-- C1: for every Timestamp whose ticks fit in 60 bits and counter fits in
14 bits, and every 6-byte node ID, disassembling the identifier produced by
assembly yields
`some (Timestamp::from_rfc4122(ticks & mask60, counter & mask14))`
(with `& mask60` and `& mask14` written `% 2 ^ 60` and `% 2 ^ 14`): the
byte and bit positions read by `to_timestamp` invert those written by
`new_v1` exactly. -/
theorem new_v1_to_timestamp_roundtrip (ts : Timestamp) (node_id : List Nat)
    (hticks : ts.ticks < 2 ^ 60) (hcounter : ts.counter < 2 ^ 14)
    (hlen : node_id.length = 6) :
    (Uuid.new_v1 ts node_id).map Uuid.to_timestamp =
      Except.ok (some (Timestamp.from_rfc4122 (ts.ticks % 2 ^ 60)
        (ts.counter % 2 ^ 14))) := by
  have hu : Uuid.new_v1 ts node_id = Except.ok (Uuid.from_fields
      (ts.ticks % 2 ^ 32) (ts.ticks / 2 ^ 32 % 2 ^ 16)
      (ts.ticks / 2 ^ 48 % 2 ^ 12 + 2 ^ 12)
      ([ts.counter / 2 ^ 8 % 2 ^ 6 + 128, ts.counter % 256] ++ node_id)) := by
    simp [Uuid.new_v1, hlen]
  rw [hu]
  rw [Except.map, to_timestamp_version_one _ (by
    simp [Uuid.from_fields, Uuid.as_bytes]
    omega)]
  simp [Uuid.from_fields, Uuid.as_bytes, Timestamp.from_rfc4122]
  omega

/-- Witness for `new_v1_to_timestamp_roundtrip` at the test vector's
timestamp, counter 42, and node ID `[1,2,3,4,5,6]`. -/
theorem new_v1_to_timestamp_roundtrip_witness :
    (Uuid.new_v1 (Timestamp.from_rfc4122 137161473358129460 42)
        [1, 2, 3, 4, 5, 6]).map Uuid.to_timestamp =
      Except.ok (some (Timestamp.from_rfc4122 (137161473358129460 % 2 ^ 60)
        (42 % 2 ^ 14))) :=
  new_v1_to_timestamp_roundtrip (Timestamp.from_rfc4122 137161473358129460 42)
    [1, 2, 3, 4, 5, 6] (by decide) (by decide) (by decide)

/-- First from_unix call of the concrete test vector: seconds
1_496_854_535, subsec nanoseconds 812_946_000, default context starting
at 0.  Yields the timestamp and the advanced context. -/
def vecFirst : Timestamp × Context :=
  Timestamp.from_unix Context.clockSequence (Context.new 0) 1496854535 812946000

/-- Second from_unix call of the concrete test vector: same inputs, same
(now advanced) context. -/
def vecSecond : Timestamp × Context :=
  Timestamp.from_unix Context.clockSequence vecFirst.2 1496854535 812946000

/-- C8: with seconds 1_496_854_535, nanos 812_946_000, node
`[1,2,3,4,5,6]` and a default context starting at 0, the first identifier
assembled via `from_unix` + `new_v1` disassembles to ticks
`UUID_TICKS_BETWEEN_EPOCHS + 14_968_545_358_129_460` (i.e.
`ticks - offset = 14_968_545_358_129_460`) and counter 0; the second call
with the same inputs and context yields counter 1. -/
theorem test_new_v1_vector :
    (Uuid.new_v1 vecFirst.1 [1, 2, 3, 4, 5, 6]).map Uuid.to_timestamp =
      Except.ok (some (Timestamp.from_rfc4122
        (UUID_TICKS_BETWEEN_EPOCHS + 14968545358129460) 0)) ∧
    (Uuid.new_v1 vecSecond.1 [1, 2, 3, 4, 5, 6]).map Uuid.to_timestamp =
      Except.ok (some (Timestamp.from_rfc4122
        (UUID_TICKS_BETWEEN_EPOCHS + 14968545358129460) 1)) :=
  ⟨rfl, rfl⟩

/-- C9: disassembly never fails with an error (its result type is an
option, not a result); on any identifier whose version nibble (the high
nibble of raw byte 6) is not `0001` — another version, or no recognizable
version at all — `to_timestamp` returns `none`. -/
theorem to_timestamp_non_v1_none (u : Uuid) (h : u.as_bytes.getD 6 0 / 2 ^ 4 ≠ 1) :
    u.to_timestamp = none := by
  have hb : (u.get_version.map fun v => v != 1).getD true = true := by
    simp only [Uuid.get_version]
    by_cases h5 :
        1 ≤ u.as_bytes.getD 6 0 / 2 ^ 4 ∧ u.as_bytes.getD 6 0 / 2 ^ 4 ≤ 5
    · rw [if_pos h5]
      simpa using h
    · rw [if_neg h5]
      rfl
  simp [Uuid.to_timestamp, hb]

/-- Witness for `to_timestamp_non_v1_none`: the all-zero identifier
(version nibble 0) disassembles to `none`. -/
theorem to_timestamp_non_v1_none_witness :
    (Uuid.mk [0, 0, 0, 0, 0, 0, 0, 0, 0, 0, 0, 0, 0, 0, 0, 0]).to_timestamp =
      none :=
  to_timestamp_non_v1_none
    (Uuid.mk [0, 0, 0, 0, 0, 0, 0, 0, 0, 0, 0, 0, 0, 0, 0, 0]) (by decide)

/-- Bytes of a well-formed identifier are below 256 at every position. -/
theorem wf_byte_lt (u : Uuid) (hwf : u.wf) (i : Nat) : u.bytes.getD i 0 < 256 := by
  rcases hwf with ⟨hlen, hall⟩
  rw [List.getD_eq_getElem?_getD]
  cases hg : u.bytes[i]? with
  | none => simp
  | some b =>
      have hb := hall b (List.getElem?_mem hg)
      simpa [hg] using hb

/-- C10: whenever disassembly of a well-formed identifier succeeds, the
resulting Timestamp satisfies the format bounds: ticks below `2 ^ 60`
(byte 6 is masked with `0x0F`) and counter below `2 ^ 14` (byte 8 is
masked with `0x3F`). -/
theorem to_timestamp_bounds (u : Uuid) (hwf : u.wf) (t : Timestamp)
    (h : u.to_timestamp = some t) :
    t.ticks < 2 ^ 60 ∧ t.counter < 2 ^ 14 := by
  have h7 := wf_byte_lt u hwf 7
  have h4 := wf_byte_lt u hwf 4
  have h5 := wf_byte_lt u hwf 5
  have h0 := wf_byte_lt u hwf 0
  have h1 := wf_byte_lt u hwf 1
  have h2 := wf_byte_lt u hwf 2
  have h3 := wf_byte_lt u hwf 3
  have h9 := wf_byte_lt u hwf 9
  simp only [Uuid.to_timestamp, Uuid.as_bytes] at h
  split at h
  · exact absurd h (by simp)
  · rw [Option.some.injEq] at h
    subst h
    simp only [Timestamp.from_rfc4122]
    constructor <;> omega

/-- Witness for `to_timestamp_bounds`: a well-formed V1 identifier with
all data bits zero disassembles to the zero Timestamp, inside bounds. -/
theorem to_timestamp_bounds_witness :
    (Timestamp.mk 0 0).ticks < 2 ^ 60 ∧ (Timestamp.mk 0 0).counter < 2 ^ 14 :=
  to_timestamp_bounds
    (Uuid.mk [0, 0, 0, 0, 0, 0, 16, 0, 0, 0, 0, 0, 0, 0, 0, 0])
    (by decide) (Timestamp.mk 0 0) (by decide)

end V1
